import Mathlib

/-!
Shallow embedding of the futu trading repository (src/): the moving-average
strategy (src/strategy.py), the environment-variable configuration
(src/config.py), the trading and market-data wrappers (src/trading.py,
src/market_data.py), the command-line entry point (src/main.py) and the
password-hash utilities (src/utils.py).  Prices and cash amounts are
modelled as rationals; pandas DataFrames of closing prices become lists of
rationals; machine 32-bit words in MD5 become naturals reduced mod 2^32.
-/

set_option maxRecDepth 100000

/-! ## Signals and the moving-average computation (src/strategy.py) -/

/-- Order side of a generated signal: the `action` field of the dict built in
`SimpleMovingAverageStrategy.process_data`. -/
inductive SignalAction
  | BUY
  | SELL
deriving DecidableEq

/-- A trading signal as built by `process_data`: the `action` and `price`
entries of the signal dict (the constant `reason` string is omitted). -/
structure Signal where
  action : SignalAction
  price : ℚ
deriving DecidableEq

/-- Pandas `Series.rolling(window=w).mean()` evaluated at row `i` of a column
holding `closes`: defined (`some`) when the window is full, i.e. `w ≤ i + 1`,
and `NaN` (`none`) otherwise. -/
def rolling_mean (closes : List ℚ) (w : Nat) (i : Nat) : Option ℚ :=
  if w ≤ i + 1 ∧ i < closes.length then
    some (((closes.drop (i + 1 - w)).take w).sum / (w : ℚ))
  else none

/-- The comparison `row['short_ma'] > row['long_ma']` at row `i`, with the
pandas convention that any comparison against `NaN` is `False`. -/
def ma_gt (closes : List ℚ) (short_window long_window : Nat) (i : Nat) : Bool :=
  match rolling_mean closes short_window i, rolling_mean closes long_window i with
  | some s, some l => decide (l < s)
  | _, _ => false

/-- `SimpleMovingAverageStrategy.process_data` (src/strategy.py lines 146-195),
with the K-line frame reduced to its list of closing prices.  Returns
`.ok none` on the insufficient-data early return, `.error ()` where the
Python code raises (`rolling` with a zero window raises `ValueError`;
`iloc[-2]` on a frame of fewer than two rows raises `IndexError`), and
otherwise the crossover logic: current bar is the last row, previous bar the
second-to-last row. -/
def process_data (closes : List ℚ) (short_window long_window : Nat)
    (last_position : Int) : Except Unit (Option Signal) :=
  if closes.length < long_window then .ok none
  else if short_window = 0 ∨ long_window = 0 then .error ()
  else if closes.length < 2 then .error ()
  else
    let n := closes.length
    let current_crossover := ma_gt closes short_window long_window (n - 1)
    let previous_crossover := ma_gt closes short_window long_window (n - 2)
    let price := closes.getLastD 0
    if current_crossover = true ∧ previous_crossover = false then
      if last_position ≠ 1 then .ok (some ⟨.BUY, price⟩) else .ok none
    else if current_crossover = false ∧ previous_crossover = true then
      if last_position = 1 then .ok (some ⟨.SELL, price⟩) else .ok none
    else .ok none

/-- An upward crossing at the last bar of `closes` under the code's comparison
semantics: the frame is long enough, the short average is above the long
average on the current bar and was not above it (including the NaN cases) on
the previous bar. -/
def cross_up (closes : List ℚ) (short_window long_window : Nat) : Bool :=
  decide (long_window ≤ closes.length) &&
    ma_gt closes short_window long_window (closes.length - 1) &&
    !(ma_gt closes short_window long_window (closes.length - 2))

/-- A downward crossing at the last bar of `closes`: the mirror image of
`cross_up`. -/
def cross_down (closes : List ℚ) (short_window long_window : Nat) : Bool :=
  decide (long_window ≤ closes.length) &&
    !(ma_gt closes short_window long_window (closes.length - 1)) &&
    ma_gt closes short_window long_window (closes.length - 2)

/-! ## Repeated runs of the strategy loop over a growing price series

`run_state closes sw lw t` is the pair (signals emitted so far, current
`last_position`) after the strategy loop has run `process_data` on every
prefix of `closes` of length `0, 1, ..., t - 1`, assuming every emitted
signal is executed successfully (so `execute_signal` sets `last_position`
to 1 after a BUY and to 0 after a SELL, src/strategy.py lines 257 and 280).
Each emitted signal is recorded with the prefix length at which it fired. -/
def run_state (closes : List ℚ) (short_window long_window : Nat) :
    Nat → List (Nat × SignalAction) × Int
  | 0 => ([], 0)
  | t + 1 =>
    let st := run_state closes short_window long_window t
    match process_data (closes.take t) short_window long_window st.2 with
    | .ok (some sig) =>
        (st.1 ++ [(t, sig.action)], match sig.action with | .BUY => 1 | .SELL => 0)
    | _ => st

/-- The full signal sequence produced while the price series grows one bar at
a time from the empty prefix to all of `closes`. -/
def run_signals (closes : List ℚ) (short_window long_window : Nat) :
    List (Nat × SignalAction) :=
  (run_state closes short_window long_window (closes.length + 1)).1

/-! ## Order execution (`SimpleMovingAverageStrategy.execute_signal`) -/

/-- One row of the positions DataFrame returned by `Trading.get_positions`,
restricted to the two columns `execute_signal` reads. -/
structure PositionRec where
  code : String
  qty : ℚ
deriving DecidableEq

/-- The arguments of a `Trading.place_order` call made by `execute_signal`
(the order type is always `NORMAL` and is omitted). -/
structure OrderRec where
  code : String
  price : ℚ
  qty : ℚ
  side : SignalAction
deriving DecidableEq

/-- Outcome of `execute_signal`: its boolean return value, the
`place_order` request it issued (if any), and the resulting
`last_position`. -/
structure ExecResult where
  success : Bool
  order : Option OrderRec
  last_position : Int
deriving DecidableEq

/-- Python `int()` applied to a rational: truncation toward zero. -/
def py_int (q : ℚ) : Int :=
  if 0 ≤ q then ⌊q⌋ else ⌈q⌉

/-- `SimpleMovingAverageStrategy.execute_signal` (src/strategy.py lines
197-286).  `account_power` is `account_info['power'][0]` (`none` when
`get_account_info` returned `None`), `positions` the rows of the positions
frame (`none` when `get_positions` returned `None`), and `order_accepted`
tells whether the vendor `place_order` call returned data rather than an
error. -/
def execute_signal (stock_code : String) (last_position : Int)
    (signal : Option Signal) (account_power : Option ℚ)
    (positions : Option (List PositionRec)) (order_accepted : Bool) : ExecResult :=
  match signal with
  | none => ⟨false, none, last_position⟩
  | some sig =>
    match account_power, positions with
    | none, _ => ⟨false, none, last_position⟩
    | some _, none => ⟨false, none, last_position⟩
    | some cash, some poss =>
      let stock_positions := poss.filter (fun p => p.code = stock_code)
      let has_position := !stock_positions.isEmpty
      let position_qty := (stock_positions.head?.map PositionRec.qty).getD 0
      match sig.action with
      | .BUY =>
        if has_position then ⟨false, none, last_position⟩
        else
          let max_qty := py_int (cash / sig.price / 100) * 100
          if max_qty < 100 then ⟨false, none, last_position⟩
          else if order_accepted then
            ⟨true, some ⟨stock_code, sig.price, (max_qty : ℚ), .BUY⟩, 1⟩
          else ⟨false, some ⟨stock_code, sig.price, (max_qty : ℚ), .BUY⟩, last_position⟩
      | .SELL =>
        if !has_position || decide (position_qty ≤ 0) then ⟨false, none, last_position⟩
        else if order_accepted then
          ⟨true, some ⟨stock_code, sig.price, position_qty, .SELL⟩, 0⟩
        else ⟨false, some ⟨stock_code, sig.price, position_qty, .SELL⟩, last_position⟩

/-! ## Trading environment configuration (src/config.py, src/trading.py) -/

/-- The vendor SDK's trading environment constant (`ft.TrdEnv`). -/
inductive TrdEnv
  | REAL
  | SIMULATE
deriving DecidableEq

/-- Python `s.upper()` (only ASCII letters occur at the use sites). -/
def py_upper (s : String) : String :=
  ⟨s.data.map Char.toUpper⟩

/-- The value of `config.TRADING_ENV` (src/config.py lines 16-21): the raw
environment variable (or the default `'SIMULATE'` when unset) is uppercased
and, when not one of `'REAL'`/`'SIMULATE'`, coerced to `'SIMULATE'` with a
warning. -/
def trading_env_config (raw : Option String) : String :=
  let v := py_upper (raw.getD "SIMULATE")
  if v = "REAL" ∨ v = "SIMULATE" then v else "SIMULATE"

/-- The six `Trading` methods that pass a trading environment to the vendor
SDK (src/trading.py). -/
inductive TradingOp
  | placeOrder
  | cancelOrder
  | modifyOrder
  | orderListQuery
  | positionQuery
  | accountQuery
deriving DecidableEq

/-- The expression
`trd_env = ft.TrdEnv.REAL if config.TRADING_ENV == 'REAL' else ft.TrdEnv.SIMULATE`
as written separately in each of the six `Trading` methods (src/trading.py
lines 50, 98, 139, 207, 324, 452). -/
def trd_env_for (op : TradingOp) (trading_env : String) : TrdEnv :=
  match op with
  | .placeOrder => if trading_env = "REAL" then .REAL else .SIMULATE
  | .cancelOrder => if trading_env = "REAL" then .REAL else .SIMULATE
  | .modifyOrder => if trading_env = "REAL" then .REAL else .SIMULATE
  | .orderListQuery => if trading_env = "REAL" then .REAL else .SIMULATE
  | .positionQuery => if trading_env = "REAL" then .REAL else .SIMULATE
  | .accountQuery => if trading_env = "REAL" then .REAL else .SIMULATE

/-! ## The `Strategy.start` control flow (src/strategy.py lines 60-93) -/

/-- How the `while self.running` loop body of `Strategy.start` ends: a normal
stop (`running` cleared by `stop`), a `KeyboardInterrupt`, a `SystemExit`
(raised by the `handle_exit` signal handler calling `sys.exit`), or any other
exception. -/
inductive LoopOutcome
  | normalStop
  | keyboardInterrupt
  | systemExit
  | otherException
deriving DecidableEq

/-- `Strategy.start`: returns the value of `self.running` on return and
whether an exception escapes the method.  The early `if self.running: return`
guard leaves the flag untouched; a setup failure clears it and returns; the
main loop is wrapped in `try/except KeyboardInterrupt/except Exception`
whose `finally` clears the flag, so only a `SystemExit` (a `BaseException`
matched by neither handler) propagates. -/
def start_run (running_before : Bool) (setup_ok : Bool) (outcome : LoopOutcome) :
    Bool × Bool :=
  if running_before then (true, false)
  else if !setup_ok then (false, false)
  else
    match outcome with
    | .systemExit => (false, true)
    | _ => (false, false)

/-! ## One iteration of the strategy main loop (src/strategy.py lines 75-86) -/

/-- Observable events of one iteration of the `while self.running` loop. -/
inductive LoopEvent
  | processDataEv (result : Option Signal)
  | executeSignalEv (sig : Signal)
  | sleepEv
deriving DecidableEq

/-- The body of the main loop: call `process_data`, then `execute_signal`
exactly under `if signal:`, then `time.sleep(1)`.  `process_data` returns
either `None` or a non-empty dict, so Python truthiness coincides with
`Option.isSome`. -/
def iteration_trace (signal : Option Signal) : List LoopEvent :=
  LoopEvent.processDataEv signal ::
    ((match signal with
      | some s => [LoopEvent.executeSignalEv s]
      | none => []) ++ [LoopEvent.sleepEv])

/-- The trace of a run of the main loop whose successive `process_data`
results are `signals`. -/
def loop_trace (signals : List (Option Signal)) : List LoopEvent :=
  signals.flatMap iteration_trace

/-- Recognizer for `execute_signal` calls (order-issuing calls) in a trace. -/
def is_execute_event : LoopEvent → Bool
  | .executeSignalEv _ => true
  | _ => false

/-! ## The abstract base class `Strategy` (src/strategy.py lines 11-58) -/

/-- The methods of the abstract base class `Strategy` carrying the
`@abc.abstractmethod` decorator (src/strategy.py lines 29, 38 and 47). -/
def strategy_abstract_methods : List String :=
  ["setup", "process_data", "execute_signal"]

/-! ## The command-line entry point (src/main.py lines 294-358) -/

/-- The subcommands registered on the argument parser, in source order. -/
def subcommands : List String :=
  ["quote", "account", "strategy", "hash-pwd"]

/-- The `choices` list of the `strategy_name` positional argument of the
`strategy` subcommand (src/main.py line 316). -/
def strategy_name_choices : List String :=
  ["sma"]

/-- A parsed command line (one of the four subcommands with its arguments). -/
inductive CliCommand
  | quote (stock_code : String)
  | account
  | strategy (strategy_name stock_code : String) (short_window long_window : Nat)
  | hashPwd (password : String)

/-- Observable top-level events of `main`. -/
inductive MainEvent
  | initTrader
  | runQuoteDemo
  | runAccountDemo
  | runStrategyEv
  | hashPasswordEv
  | cleanup
deriving DecidableEq

/-- The dispatch performed by `main` after parsing: `hash-pwd` is handled
before the trader is created and returns immediately; every other subcommand
first calls `trader.initialize()` (whose failure skips the demo), runs its
demo or strategy when initialization succeeded, and always reaches the
`finally: trader.cleanup()`. -/
def main_run (cmd : CliCommand) (init_ok : Bool) : List MainEvent :=
  match cmd with
  | .hashPwd _ => [.hashPasswordEv]
  | .quote _ =>
      .initTrader :: ((if init_ok then [.runQuoteDemo] else []) ++ [.cleanup])
  | .account =>
      .initTrader :: ((if init_ok then [.runAccountDemo] else []) ++ [.cleanup])
  | .strategy _ _ _ _ =>
      .initTrader :: ((if init_ok then [.runStrategyEv] else []) ++ [.cleanup])

/-- Whether a parsed command is the password-hash utility. -/
def is_hash_pwd : CliCommand → Bool
  | .hashPwd _ => true
  | _ => false

/-! ## Connection guards of MarketData and Trading

Every public method of `MarketData` (src/market_data.py) and `Trading`
(src/trading.py) begins with `if not self.conn.connected: logger.error(...);
return None` (queries) or `return False` (boolean operations).  Each method
is embedded as that guard; the behaviour on a live connection depends on the
opaque vendor SDK and is abstracted as the `on_connected` argument. -/

/-- Result of one wrapper-method call: its return value, how many vendor SDK
calls it made, and whether it let an exception escape. -/
structure OpResult (α : Type) where
  result : α
  sdk_calls : Nat
  raised : Bool
deriving DecidableEq

/-- `MarketData.get_stock_quote` (src/market_data.py lines 20-39). -/
def get_stock_quote {α : Type} (connected : Bool)
    (on_connected : OpResult (Option α)) : OpResult (Option α) :=
  if !connected then ⟨none, 0, false⟩ else on_connected

/-- `MarketData.get_market_snapshot` (src/market_data.py lines 41-60). -/
def get_market_snapshot {α : Type} (connected : Bool)
    (on_connected : OpResult (Option α)) : OpResult (Option α) :=
  if !connected then ⟨none, 0, false⟩ else on_connected

/-- `MarketData.get_kline` (src/market_data.py lines 62-142). -/
def get_kline {α : Type} (connected : Bool)
    (on_connected : OpResult (Option α)) : OpResult (Option α) :=
  if !connected then ⟨none, 0, false⟩ else on_connected

/-- `MarketData.get_order_book` (src/market_data.py lines 144-196). -/
def get_order_book {α : Type} (connected : Bool)
    (on_connected : OpResult (Option α)) : OpResult (Option α) :=
  if !connected then ⟨none, 0, false⟩ else on_connected

/-- `Trading.get_order_list` (src/trading.py lines 189-305). -/
def get_order_list {α : Type} (connected : Bool)
    (on_connected : OpResult (Option α)) : OpResult (Option α) :=
  if !connected then ⟨none, 0, false⟩ else on_connected

/-- `Trading.get_positions` (src/trading.py lines 307-436). -/
def get_positions {α : Type} (connected : Bool)
    (on_connected : OpResult (Option α)) : OpResult (Option α) :=
  if !connected then ⟨none, 0, false⟩ else on_connected

/-- `Trading.get_account_info` (src/trading.py lines 438-538). -/
def get_account_info {α : Type} (connected : Bool)
    (on_connected : OpResult (Option α)) : OpResult (Option α) :=
  if !connected then ⟨none, 0, false⟩ else on_connected

/-- `MarketData.subscribe_stock` (src/market_data.py lines 198-257). -/
def subscribe_stock (connected : Bool)
    (on_connected : OpResult Bool) : OpResult Bool :=
  if !connected then ⟨false, 0, false⟩ else on_connected

/-- `Trading.cancel_order` (src/trading.py lines 77-116). -/
def cancel_order (connected : Bool)
    (on_connected : OpResult Bool) : OpResult Bool :=
  if !connected then ⟨false, 0, false⟩ else on_connected

/-- `Trading.modify_order` (src/trading.py lines 118-187). -/
def modify_order (connected : Bool)
    (on_connected : OpResult Bool) : OpResult Bool :=
  if !connected then ⟨false, 0, false⟩ else on_connected

/-! ## Password utilities (src/utils.py)

`generate_password_hash` and `hash_password` call
`hashlib.md5(password.encode()).hexdigest()`; MD5 (RFC 1321) is embedded
below over naturals reduced modulo `2 ^ 32`, with the UTF-8 encoding of the
password as the message bytes. -/

/-- `2 ^ 32`, the word modulus of MD5. -/
def M32 : Nat := 4294967296

/-- Left-rotation of a 32-bit word by `s` bits. -/
def rotl32 (x s : Nat) : Nat :=
  (x * 2 ^ s + x / 2 ^ (32 - s)) % M32

/-- Bitwise complement within 32 bits. -/
def bnot32 (x : Nat) : Nat :=
  Nat.xor x 4294967295

/-- The `w` little-endian bytes of `x`. -/
def le_bytes : Nat → Nat → List Nat
  | 0, _ => []
  | w + 1, x => x % 256 :: le_bytes w (x / 256)

/-- The UTF-8 encoding of one character, as Python's `str.encode()` produces
byte by byte. -/
def utf8_bytes (c : Char) : List Nat :=
  let n := c.toNat
  if n < 128 then [n]
  else if n < 2048 then [192 + n / 64, 128 + n % 64]
  else if n < 65536 then [224 + n / 4096, 128 + n / 64 % 64, 128 + n % 64]
  else [240 + n / 262144, 128 + n / 4096 % 64, 128 + n / 64 % 64, 128 + n % 64]

/-- RFC 1321 padding: append `0x80`, zero bytes up to 56 mod 64, then the
bit length modulo `2 ^ 64` as eight little-endian bytes. -/
def pad_message (msg : List Nat) : List Nat :=
  let len_bits := (8 * msg.length) % 2 ^ 64
  let zeros := (56 + 64 - (msg.length + 1) % 64) % 64
  msg ++ 128 :: (List.replicate zeros 0 ++ le_bytes 8 len_bits)

/-- Split a byte list into 64-byte chunks, structurally recursing on a fuel
counter that starts at the list length (each step consumes at least one
element, so the fuel never runs out). -/
def chunks64_fuel : Nat → List Nat → List (List Nat)
  | _, [] => []
  | 0, _ :: _ => []
  | fuel + 1, x :: xs => (x :: xs.take 63) :: chunks64_fuel fuel (xs.drop 63)

/-- Split a byte list into 64-byte chunks. -/
def chunks64 (l : List Nat) : List (List Nat) :=
  chunks64_fuel l.length l

/-- The 64 MD5 round constants `K[i] = floor(2^32 * abs(sin(i + 1)))`. -/
def md5_k : List Nat :=
  [0xd76aa478, 0xe8c7b756, 0x242070db, 0xc1bdceee,
   0xf57c0faf, 0x4787c62a, 0xa8304613, 0xfd469501,
   0x698098d8, 0x8b44f7af, 0xffff5bb1, 0x895cd7be,
   0x6b901122, 0xfd987193, 0xa679438e, 0x49b40821,
   0xf61e2562, 0xc040b340, 0x265e5a51, 0xe9b6c7aa,
   0xd62f105d, 0x02441453, 0xd8a1e681, 0xe7d3fbc8,
   0x21e1cde6, 0xc33707d6, 0xf4d50d87, 0x455a14ed,
   0xa9e3e905, 0xfcefa3f8, 0x676f02d9, 0x8d2a4c8a,
   0xfffa3942, 0x8771f681, 0x6d9d6122, 0xfde5380c,
   0xa4beea44, 0x4bdecfa9, 0xf6bb4b60, 0xbebfbc70,
   0x289b7ec6, 0xeaa127fa, 0xd4ef3085, 0x04881d05,
   0xd9d4d039, 0xe6db99e5, 0x1fa27cf8, 0xc4ac5665,
   0xf4292244, 0x432aff97, 0xab9423a7, 0xfc93a039,
   0x655b59c3, 0x8f0ccc92, 0xffeff47d, 0x85845dd1,
   0x6fa87e4f, 0xfe2ce6e0, 0xa3014314, 0x4e0811a1,
   0xf7537e82, 0xbd3af235, 0x2ad7d2bb, 0xeb86d391]

/-- The 64 MD5 per-round left-rotation amounts. -/
def md5_s : List Nat :=
  [7, 12, 17, 22, 7, 12, 17, 22, 7, 12, 17, 22, 7, 12, 17, 22,
   5, 9, 14, 20, 5, 9, 14, 20, 5, 9, 14, 20, 5, 9, 14, 20,
   4, 11, 16, 23, 4, 11, 16, 23, 4, 11, 16, 23, 4, 11, 16, 23,
   6, 10, 15, 21, 6, 10, 15, 21, 6, 10, 15, 21, 6, 10, 15, 21]

/-- The four 32-bit state words of the MD5 compression function. -/
structure MDState where
  a : Nat
  b : Nat
  c : Nat
  d : Nat
deriving DecidableEq

/-- The MD5 initial state. -/
def md5_init : MDState :=
  ⟨0x67452301, 0xefcdab89, 0x98badcfe, 0x10325476⟩

/-- Word `j` of a 64-byte chunk, assembled little-endian. -/
def le_word (chunk : List Nat) (j : Nat) : Nat :=
  chunk.getD (4 * j) 0 + 256 * chunk.getD (4 * j + 1) 0 +
    65536 * chunk.getD (4 * j + 2) 0 + 16777216 * chunk.getD (4 * j + 3) 0

/-- One of the 64 MD5 rounds: the round function `F/G/H/I`, the message
index schedule, and the state rotation `(A, B, C, D) := (D, B + rotl, B, C)`. -/
def md5_round (m : Nat → Nat) (st : MDState) (i : Nat) : MDState :=
  let f :=
    if i < 16 then Nat.lor (Nat.land st.b st.c) (Nat.land (bnot32 st.b) st.d)
    else if i < 32 then Nat.lor (Nat.land st.d st.b) (Nat.land (bnot32 st.d) st.c)
    else if i < 48 then Nat.xor (Nat.xor st.b st.c) st.d
    else Nat.xor st.c (Nat.lor st.b (bnot32 st.d))
  let g :=
    if i < 16 then i
    else if i < 32 then (5 * i + 1) % 16
    else if i < 48 then (3 * i + 5) % 16
    else (7 * i) % 16
  let f2 := (f + st.a + md5_k.getD i 0 + m g) % M32
  ⟨st.d, (st.b + rotl32 f2 (md5_s.getD i 0)) % M32, st.b, st.c⟩

/-- The MD5 compression function on one 64-byte chunk. -/
def md5_chunk (st : MDState) (chunk : List Nat) : MDState :=
  let r := (List.range 64).foldl (md5_round (fun j => le_word chunk j)) st
  ⟨(st.a + r.a) % M32, (st.b + r.b) % M32, (st.c + r.c) % M32, (st.d + r.d) % M32⟩

/-- The 16-byte MD5 digest of a byte string. -/
def md5_bytes (msg : List Nat) : List Nat :=
  let st := (chunks64 (pad_message msg)).foldl md5_chunk md5_init
  le_bytes 4 st.a ++ le_bytes 4 st.b ++ le_bytes 4 st.c ++ le_bytes 4 st.d

/-- The lowercase hexadecimal digit for `n` (`n ≤ 15` at every use site). -/
def hex_digit (n : Nat) : Char :=
  match n with
  | 0 => '0' | 1 => '1' | 2 => '2' | 3 => '3' | 4 => '4'
  | 5 => '5' | 6 => '6' | 7 => '7' | 8 => '8' | 9 => '9'
  | 10 => 'a' | 11 => 'b' | 12 => 'c' | 13 => 'd' | 14 => 'e'
  | _ => 'f'

/-- The two-character `%02x` rendering of one byte, as `hexdigest` formats
each digest byte. -/
def byte_hex (b : Nat) : List Char :=
  [hex_digit (b / 16), hex_digit (b % 16)]

/-- The 32 characters of `hashlib.md5(msg).hexdigest()`. -/
def md5_hex_chars (msg : List Nat) : List Char :=
  (md5_bytes msg).flatMap byte_hex

/-- `hashlib.md5(s.encode()).hexdigest()` for a string `s`. -/
def md5_hex (s : String) : String :=
  ⟨md5_hex_chars (s.data.flatMap utf8_bytes)⟩

/-- The character class `[a-f0-9]` of the regex in `is_md5_hash`: a lowercase
hex letter or a decimal digit. -/
def is_hex_char (c : Char) : Bool :=
  decide (('a' ≤ c ∧ c ≤ 'f') ∨ ('0' ≤ c ∧ c ≤ '9'))

/-- Python `s.lower()` (only ASCII letters occur at the use sites). -/
def py_lower (s : String) : String :=
  ⟨s.data.map Char.toLower⟩

/-- `is_md5_hash` (src/utils.py lines 7-19): false for the empty string,
otherwise `bool(re.match(r'^[a-f0-9]\x7b32\x7d$', s.lower()))` — a full
match of 32 hex characters, where Python's `$` also accepts one trailing
newline. -/
def is_md5_hash (s : String) : Bool :=
  if s.data.isEmpty then false
  else
    let t := (py_lower s).data
    (decide (t.length = 32) && t.all is_hex_char) ||
      (decide (t.length = 33) && (t.take 32).all is_hex_char &&
        decide (t.getLast? = some '\n'))

/-- `hash_password` (src/utils.py lines 21-48). -/
def hash_password (password : String) (use_md5 : Bool)
    (is_already_hashed : Bool) : String :=
  if password.data.isEmpty then password
  else if is_already_hashed || !use_md5 then password
  else if is_md5_hash password then password
  else md5_hex password

/-- `generate_password_hash` (src/utils.py lines 50-60). -/
def generate_password_hash (password : String) : String :=
  md5_hex password

/-! ## Helper instances -/

/-- Decidable equality for `Except`, used to evaluate `process_data` on
concrete inputs. -/
instance {ε α : Type} [DecidableEq ε] [DecidableEq α] :
    DecidableEq (Except ε α) := fun a b =>
  match a, b with
  | .ok x, .ok y =>
      if h : x = y then .isTrue (by rw [h]) else .isFalse (by simp [h])
  | .error x, .error y =>
      if h : x = y then .isTrue (by rw [h]) else .isFalse (by simp [h])
  | .ok _, .error _ => .isFalse (by simp)
  | .error _, .ok _ => .isFalse (by simp)

/-- The signal carried by a `process_data` result (`none` for the no-signal
return and for the exceptional paths). -/
def pd_signal (r : Except Unit (Option Signal)) : Option Signal :=
  match r with
  | .ok (some s) => some s
  | _ => none

/-- The action of the signal carried by a `process_data` result. -/
def pd_action (r : Except Unit (Option Signal)) : Option SignalAction :=
  (pd_signal r).map Signal.action

/-! ## Theorems -/

/-- On a frame with at least `long_window` (and at least two) bars and
positive window sizes, `process_data` raises nothing and reduces to the
crossover decision tree. -/
theorem process_data_eq (closes : List ℚ) (short_window long_window : Nat)
    (pos : Int) (h1 : 1 ≤ short_window) (h2 : 1 ≤ long_window)
    (h3 : long_window ≤ closes.length) (h4 : 2 ≤ closes.length) :
    process_data closes short_window long_window pos =
      .ok (if ma_gt closes short_window long_window (closes.length - 1) = true ∧
              ma_gt closes short_window long_window (closes.length - 2) = false then
             (if pos ≠ 1 then some ⟨.BUY, closes.getLastD 0⟩ else none)
           else if ma_gt closes short_window long_window (closes.length - 1) = false ∧
              ma_gt closes short_window long_window (closes.length - 2) = true then
             (if pos = 1 then some ⟨.SELL, closes.getLastD 0⟩ else none)
           else none) := by
  have hg1 : ¬ closes.length < long_window := not_lt.mpr h3
  have hg2 : ¬ (short_window = 0 ∨ long_window = 0) := by omega
  have hg3 : ¬ closes.length < 2 := not_lt.mpr h4
  rcases hcur : ma_gt closes short_window long_window (closes.length - 1) <;>
    rcases hprev : ma_gt closes short_window long_window (closes.length - 2) <;>
    by_cases hp : pos = 1 <;>
    simp [process_data, hg1, hg2, hg3, hcur, hprev, hp]

/-- On a frame shorter than `long_window`, `process_data` takes the
insufficient-data early return. -/
theorem process_data_short (closes : List ℚ) (short_window long_window : Nat)
    (pos : Int) (h : closes.length < long_window) :
    process_data closes short_window long_window pos = .ok none := by
  rw [process_data, if_pos h]

/-- C1: on a K-line series with at least `long_window` bars (and satisfying
the implicit runtime preconditions of the code: positive window sizes for
pandas `rolling`, and at least two rows for `iloc[-2]`), `process_data`
raises no exception and returns a BUY signal exactly when the short moving
average is above the long one on the current bar, was not above it on the
previous bar (where "at-or-below" is rendered as the code's pandas
comparison, which treats a not-yet-defined average as not above), and no
position is held; a SELL signal exactly on the reverse transition with a
position held; and no signal in every other case. -/
theorem c1_process_data_crossover (closes : List ℚ)
    (short_window long_window : Nat) (last_position : Int)
    (h1 : 1 ≤ short_window) (h2 : 1 ≤ long_window)
    (h3 : long_window ≤ closes.length) (h4 : 2 ≤ closes.length) :
    (process_data closes short_window long_window last_position).isOk = true ∧
    (pd_action (process_data closes short_window long_window last_position)
        = some SignalAction.BUY ↔
      (ma_gt closes short_window long_window (closes.length - 1) = true ∧
       ma_gt closes short_window long_window (closes.length - 2) = false ∧
       last_position ≠ 1)) ∧
    (pd_action (process_data closes short_window long_window last_position)
        = some SignalAction.SELL ↔
      (ma_gt closes short_window long_window (closes.length - 1) = false ∧
       ma_gt closes short_window long_window (closes.length - 2) = true ∧
       last_position = 1)) ∧
    (process_data closes short_window long_window last_position = .ok none ↔
      ¬ (ma_gt closes short_window long_window (closes.length - 1) = true ∧
         ma_gt closes short_window long_window (closes.length - 2) = false ∧
         last_position ≠ 1) ∧
      ¬ (ma_gt closes short_window long_window (closes.length - 1) = false ∧
         ma_gt closes short_window long_window (closes.length - 2) = true ∧
         last_position = 1)) := by
  rw [process_data_eq closes short_window long_window last_position h1 h2 h3 h4]
  rcases hcur : ma_gt closes short_window long_window (closes.length - 1) <;>
    rcases hprev : ma_gt closes short_window long_window (closes.length - 2) <;>
    by_cases hp : last_position = 1 <;>
    simp [pd_action, pd_signal, Except.isOk, Except.toBool, hp]

/-- Witness for C1 at the concrete series `[1, 2]` with windows 1 and 2 and
no position held: an upward crossing that yields a BUY. -/
theorem c1_process_data_crossover_witness :
    (process_data [(1 : ℚ), 2] 1 2 0).isOk = true ∧
    (pd_action (process_data [(1 : ℚ), 2] 1 2 0) = some SignalAction.BUY ↔
      (ma_gt [(1 : ℚ), 2] 1 2 ([(1 : ℚ), 2].length - 1) = true ∧
       ma_gt [(1 : ℚ), 2] 1 2 ([(1 : ℚ), 2].length - 2) = false ∧
       (0 : Int) ≠ 1)) ∧
    (pd_action (process_data [(1 : ℚ), 2] 1 2 0) = some SignalAction.SELL ↔
      (ma_gt [(1 : ℚ), 2] 1 2 ([(1 : ℚ), 2].length - 1) = false ∧
       ma_gt [(1 : ℚ), 2] 1 2 ([(1 : ℚ), 2].length - 2) = true ∧
       (0 : Int) = 1)) ∧
    (process_data [(1 : ℚ), 2] 1 2 0 = .ok none ↔
      ¬ (ma_gt [(1 : ℚ), 2] 1 2 ([(1 : ℚ), 2].length - 1) = true ∧
         ma_gt [(1 : ℚ), 2] 1 2 ([(1 : ℚ), 2].length - 2) = false ∧
         (0 : Int) ≠ 1) ∧
      ¬ (ma_gt [(1 : ℚ), 2] 1 2 ([(1 : ℚ), 2].length - 1) = false ∧
         ma_gt [(1 : ℚ), 2] 1 2 ([(1 : ℚ), 2].length - 2) = true ∧
         (0 : Int) = 1)) :=
  c1_process_data_crossover [(1 : ℚ), 2] 1 2 0 (by decide) (by decide)
    (by decide) (by decide)

/-- The full characterization of which signal `process_data` emits, for any
frame length, in terms of `cross_up`/`cross_down` and the held position. -/
theorem pd_action_eq_some_iff (closes : List ℚ) (short_window long_window : Nat)
    (pos : Int) (a : SignalAction) (h1 : 1 ≤ short_window) (h2 : 2 ≤ long_window) :
    pd_action (process_data closes short_window long_window pos) = some a ↔
      ((a = SignalAction.BUY ∧ cross_up closes short_window long_window = true ∧
          pos ≠ 1) ∨
       (a = SignalAction.SELL ∧ cross_down closes short_window long_window = true ∧
          pos = 1)) := by
  by_cases hlen : long_window ≤ closes.length
  · have h4 : 2 ≤ closes.length := le_trans h2 hlen
    rw [process_data_eq closes short_window long_window pos (by omega) (by omega)
      hlen h4]
    rcases hcur : ma_gt closes short_window long_window (closes.length - 1) <;>
      rcases hprev : ma_gt closes short_window long_window (closes.length - 2) <;>
      by_cases hp : pos = 1 <;> cases a <;>
      simp [pd_action, pd_signal, cross_up, cross_down, hcur, hprev, hp, hlen]
  · rw [process_data_short closes short_window long_window pos (by omega)]
    cases a <;> simp [pd_action, pd_signal, cross_up, cross_down, hlen]

/-- A pair recorded by `run_state` always carries a prefix length below the
step bound. -/
theorem run_state_fst_lt (closes : List ℚ) (short_window long_window : Nat) :
    ∀ T p, p ∈ (run_state closes short_window long_window T).1 → p.1 < T := by
  intro T
  induction T with
  | zero => intro p hp; simp [run_state] at hp
  | succ T ih =>
    intro p hp
    rw [run_state] at hp
    rcases hpd : process_data (closes.take T) short_window long_window
        (run_state closes short_window long_window T).2 with e | os
    · rw [hpd] at hp
      exact Nat.lt_succ_of_lt (ih p hp)
    · rcases os with _ | sig
      · rw [hpd] at hp
        exact Nat.lt_succ_of_lt (ih p hp)
      · rw [hpd] at hp
        simp only [List.mem_append, List.mem_singleton] at hp
        rcases hp with hp | hp
        · exact Nat.lt_succ_of_lt (ih p hp)
        · rw [hp]; exact Nat.lt_succ_self T

/-- A pair `(t, a)` is recorded by `run_state ... T` exactly when `t < T` and
`process_data`, run on the length-`t` prefix with the `last_position`
accumulated up to step `t`, emits a signal with action `a`. -/
theorem run_state_mem_iff (closes : List ℚ) (short_window long_window : Nat) :
    ∀ T t a, ((t, a) ∈ (run_state closes short_window long_window T).1 ↔
      (t < T ∧ pd_action (process_data (closes.take t) short_window long_window
        (run_state closes short_window long_window t).2) = some a)) := by
  intro T
  induction T with
  | zero => intro t a; simp [run_state]
  | succ T ih =>
    intro t a
    rw [run_state]
    rcases hpd : process_data (closes.take T) short_window long_window
        (run_state closes short_window long_window T).2 with e | os
    · constructor
      · intro hp
        obtain ⟨hlt, hP⟩ := (ih t a).mp hp
        exact ⟨Nat.lt_succ_of_lt hlt, hP⟩
      · rintro ⟨hlt, hP⟩
        rcases Nat.lt_succ_iff_lt_or_eq.mp hlt with hlt | rfl
        · exact (ih t a).mpr ⟨hlt, hP⟩
        · rw [hpd] at hP; simp [pd_action, pd_signal] at hP
    · rcases os with _ | sig
      · constructor
        · intro hp
          obtain ⟨hlt, hP⟩ := (ih t a).mp hp
          exact ⟨Nat.lt_succ_of_lt hlt, hP⟩
        · rintro ⟨hlt, hP⟩
          rcases Nat.lt_succ_iff_lt_or_eq.mp hlt with hlt | rfl
          · exact (ih t a).mpr ⟨hlt, hP⟩
          · rw [hpd] at hP; simp [pd_action, pd_signal] at hP
      · simp only [List.mem_append, List.mem_singleton, Prod.mk.injEq]
        constructor
        · rintro (hp | ⟨rfl, rfl⟩)
          · obtain ⟨hlt, hP⟩ := (ih t a).mp hp
            exact ⟨Nat.lt_succ_of_lt hlt, hP⟩
          · refine ⟨Nat.lt_succ_self t, ?_⟩
            rw [hpd]; simp [pd_action, pd_signal]
        · rintro ⟨hlt, hP⟩
          rcases Nat.lt_succ_iff_lt_or_eq.mp hlt with hlt | rfl
          · exact Or.inl ((ih t a).mpr ⟨hlt, hP⟩)
          · rw [hpd] at hP
            simp [pd_action, pd_signal] at hP
            exact Or.inr ⟨rfl, hP.symm⟩

/-- C2 counterexample: for the closing-price sequence `1, 2, 1, 2` with
windows 1 and 2, the produced signal sequence contains two BUY signals, not
exactly one, so the claim fails as universally stated. -/
theorem c2_exactly_one_buy_counterexample :
    ¬ (((run_signals [(1 : ℚ), 2, 1, 2] 1 2).map Prod.snd).count
        SignalAction.BUY = 1) := by
  with_unfolding_all decide

/-- C2 (amended): for every price sequence and window sizes (short window at
least 1, long window at least 2), with `last_position` updated on each
executed signal, the signal sequence contains a BUY at exactly those bars
where the short average crosses from not-above to above the long average
while no position is held, and a SELL at exactly the bars of the reverse
transition while a position is held, and no signal at any other bar — there
may be zero or several such crossings, hence zero or several BUYs and
SELLs. -/
theorem c2_run_signals_characterization (closes : List ℚ)
    (short_window long_window : Nat) (h1 : 1 ≤ short_window)
    (h2 : 2 ≤ long_window) (t : Nat) (a : SignalAction) :
    (t, a) ∈ run_signals closes short_window long_window ↔
      (t ≤ closes.length ∧
        ((a = SignalAction.BUY ∧
            cross_up (closes.take t) short_window long_window = true ∧
            (run_state closes short_window long_window t).2 ≠ 1) ∨
         (a = SignalAction.SELL ∧
            cross_down (closes.take t) short_window long_window = true ∧
            (run_state closes short_window long_window t).2 = 1))) := by
  rw [run_signals, run_state_mem_iff]
  rw [pd_action_eq_some_iff (closes.take t) short_window long_window
    (run_state closes short_window long_window t).2 a h1 h2]
  constructor
  · rintro ⟨hlt, hP⟩
    exact ⟨by omega, hP⟩
  · rintro ⟨hle, hP⟩
    exact ⟨by omega, hP⟩

/-- Witness for C2's amended characterization: on the series `1, 2, 1, 2`
with windows 1 and 2, the characterization places a BUY at the prefix of
length 2. -/
theorem c2_run_signals_characterization_witness :
    (2, SignalAction.BUY) ∈ run_signals [(1 : ℚ), 2, 1, 2] 1 2 :=
  (c2_run_signals_characterization [(1 : ℚ), 2, 1, 2] 1 2 (by decide) (by decide)
    2 SignalAction.BUY).mpr (by with_unfolding_all decide)

/-- C3: for every order placement, cancellation, modification, order-list
query, position query and account query, the trading environment handed to
the vendor SDK is `REAL` exactly when the raw `TRADING_ENV` environment
variable uppercases to the string `"REAL"`; in every other case — unset
variable, `"SIMULATE"`, or an invalid value coerced by the configuration
module — it is `SIMULATE`. -/
theorem c3_trading_env_real_iff (op : TradingOp) (raw : Option String) :
    (trd_env_for op (trading_env_config raw) = TrdEnv.REAL ↔
      raw.map py_upper = some "REAL") ∧
    (trd_env_for op (trading_env_config raw) = TrdEnv.SIMULATE ↔
      raw.map py_upper ≠ some "REAL") := by
  rcases raw with _ | s
  · cases op <;> decide
  · by_cases h : py_upper s = "REAL"
    · cases op <;> simp [trading_env_config, trd_env_for, h]
    · by_cases h2 : py_upper s = "SIMULATE" <;>
        cases op <;> simp [trading_env_config, trd_env_for, h, h2]

/-- C4: whenever `Strategy.start` enters its run (the flag was not already
set), it returns with `running` false — after a normal stop, a
`KeyboardInterrupt`, or any other exception in the loop body — and the only
exception that escapes the try/except around the run is a `SystemExit`
re-raised from the signal handler. -/
theorem c4_start_clears_running (setup_ok : Bool) (outcome : LoopOutcome) :
    (start_run false setup_ok outcome).1 = false ∧
    ((start_run false setup_ok outcome).2 = true ↔
      (setup_ok = true ∧ outcome = LoopOutcome.systemExit)) := by
  cases setup_ok <;> cases outcome <;> decide

/-- C5: in every iteration of the main loop of `Strategy.start`,
`execute_signal` is invoked exactly once when `process_data` returned a
truthy signal and not at all otherwise (hence at most once), and over a
whole run the number of order-issuing calls equals the number of iterations
whose `process_data` result was truthy. -/
theorem c5_execute_once_per_signal (signal : Option Signal)
    (signals : List (Option Signal)) :
    ((iteration_trace signal).countP is_execute_event
        = if signal.isSome then 1 else 0) ∧
    ((iteration_trace signal).countP is_execute_event ≤ 1) ∧
    ((loop_trace signals).countP is_execute_event
        = signals.countP Option.isSome) := by
  refine ⟨?_, ?_, ?_⟩
  · cases signal <;> simp [iteration_trace, is_execute_event]
  · cases signal <;> simp [iteration_trace, is_execute_event]
  · induction signals with
    | nil => rfl
    | cons s rest ih =>
      rw [loop_trace] at ih
      rcases s with _ | sg <;>
        simp [loop_trace, iteration_trace, is_execute_event,
          List.countP_cons, ih]

/-- C6 counterexample: the abstract base class `Strategy` does not declare
exactly two abstract methods. -/
theorem c6_two_abstract_methods_counterexample :
    ¬ (strategy_abstract_methods.length = 2) := by
  decide

/-- C6 (amended): the abstract base class `Strategy` declares exactly three
distinct abstract methods (`setup`, `process_data` and `execute_signal`), so
it is representable as an interface with three required operations. -/
theorem c6_three_abstract_methods :
    strategy_abstract_methods.length = 3 ∧ strategy_abstract_methods.Nodup := by
  decide

/-- C7: the entry point registers exactly the four distinct subcommands
(quote demo, account demo, strategy run, password hash), the strategy name
is restricted to `sma`, the `hash-pwd` subcommand runs without ever
initializing the trader, and each of the other three subcommands begins by
initializing the trader. -/
theorem c7_cli_subcommands :
    subcommands.length = 4 ∧
    subcommands.Nodup ∧
    strategy_name_choices = ["sma"] ∧
    (∀ (cmd : CliCommand) (init_ok : Bool),
      (is_hash_pwd cmd = true →
        main_run cmd init_ok = [MainEvent.hashPasswordEv] ∧
        MainEvent.initTrader ∉ main_run cmd init_ok) ∧
      (is_hash_pwd cmd = false →
        (main_run cmd init_ok).head? = some MainEvent.initTrader)) := by
  refine ⟨by decide, by decide, by decide, ?_⟩
  intro cmd init_ok
  cases cmd <;> cases init_ok <;> simp [main_run, is_hash_pwd]

/-- Witness for C7 at the `hash-pwd` subcommand: it produces only the
password-hash event and never the trader initialization. -/
theorem c7_cli_subcommands_witness :
    main_run (CliCommand.hashPwd "secret") true = [MainEvent.hashPasswordEv] ∧
    MainEvent.initTrader ∉ main_run (CliCommand.hashPwd "secret") true :=
  (c7_cli_subcommands.2.2.2 (CliCommand.hashPwd "secret") true).1 rfl

/-- C8: with the connection flag down, each of the seven query wrappers
(quote, snapshot, K-line, order book, order list, positions, account info)
returns `None`, each of the three boolean wrappers (subscribe, cancel,
modify) returns `False`, and none of them calls the vendor SDK or lets an
exception escape. -/
theorem c8_disconnected_returns (α : Type) (k : OpResult (Option α))
    (kb : OpResult Bool) :
    get_stock_quote false k = ⟨none, 0, false⟩ ∧
    get_market_snapshot false k = ⟨none, 0, false⟩ ∧
    get_kline false k = ⟨none, 0, false⟩ ∧
    get_order_book false k = ⟨none, 0, false⟩ ∧
    get_order_list false k = ⟨none, 0, false⟩ ∧
    get_positions false k = ⟨none, 0, false⟩ ∧
    get_account_info false k = ⟨none, 0, false⟩ ∧
    subscribe_stock false kb = ⟨false, 0, false⟩ ∧
    cancel_order false kb = ⟨false, 0, false⟩ ∧
    modify_order false kb = ⟨false, 0, false⟩ :=
  ⟨rfl, rfl, rfl, rfl, rfl, rfl, rfl, rfl, rfl, rfl⟩

/-- With positive price and non-negative cash, the BUY quantity
`int(cash / price / 100) * 100` is a non-negative multiple of 100 bounded by
`cash / price`, and no larger multiple of 100 stays within that bound. -/
theorem buy_qty_max (price cash : ℚ) (hp : 0 < price) (hc : 0 ≤ cash) :
    (py_int (cash / price / 100) * 100) % 100 = 0 ∧
    ((py_int (cash / price / 100) * 100 : Int) : ℚ) ≤ cash / price ∧
    ∀ m : Int, m % 100 = 0 → (m : ℚ) ≤ cash / price →
      m ≤ py_int (cash / price / 100) * 100 := by
  have hy : 0 ≤ cash / price := div_nonneg hc (le_of_lt hp)
  have hx : 0 ≤ cash / price / 100 := by positivity
  have hpy : py_int (cash / price / 100) = ⌊cash / price / 100⌋ := if_pos hx
  refine ⟨by omega, ?_, ?_⟩
  · rw [hpy]
    have hfl : (⌊cash / price / 100⌋ : ℚ) ≤ cash / price / 100 :=
      Int.floor_le (cash / price / 100)
    have h100 : (0 : ℚ) < 100 := by norm_num
    calc ((⌊cash / price / 100⌋ * 100 : Int) : ℚ)
        = (⌊cash / price / 100⌋ : ℚ) * 100 := by push_cast; ring
      _ ≤ (cash / price / 100) * 100 := by
          exact mul_le_mul_of_nonneg_right hfl (by norm_num)
      _ = cash / price := by field_simp; ring
  · intro m hm hle
    obtain ⟨k, rfl⟩ : ∃ k, m = 100 * k := by
      obtain ⟨k, hk⟩ := Int.dvd_of_emod_eq_zero hm
      exact ⟨k, hk⟩
    have hkle : (k : ℚ) ≤ cash / price / 100 := by
      rw [le_div_iff₀ (by norm_num : (0 : ℚ) < 100)]
      calc (k : ℚ) * 100 = ((100 * k : Int) : ℚ) := by push_cast; ring
        _ ≤ cash / price := hle
    have hkfl : k ≤ ⌊cash / price / 100⌋ := Int.le_floor.mpr hkle
    rw [hpy]
    omega

/-- C9: on a BUY signal `execute_signal` skips (returning false, with no
order) when a position in the stock already exists or when the computed
quantity is below one lot of 100; otherwise it requests exactly
`int(cash / price / 100) * 100` shares — the largest multiple of 100 not
exceeding `cash / price`. On a SELL signal it requests exactly the entire
held quantity, and skips when no position is held. -/
theorem c9_execute_signal_quantities (stock_code : String) (pos : Int)
    (price cash : ℚ) (positions : List PositionRec) (accepted : Bool)
    (hp : 0 < price) (hc : 0 ≤ cash) :
    ((positions.filter (fun q => q.code = stock_code)).isEmpty = false →
      execute_signal stock_code pos (some ⟨SignalAction.BUY, price⟩) (some cash)
          (some positions) accepted = ⟨false, none, pos⟩) ∧
    ((positions.filter (fun q => q.code = stock_code)).isEmpty = true →
      (py_int (cash / price / 100) * 100 < 100 →
        execute_signal stock_code pos (some ⟨SignalAction.BUY, price⟩) (some cash)
            (some positions) accepted = ⟨false, none, pos⟩) ∧
      (100 ≤ py_int (cash / price / 100) * 100 →
        (execute_signal stock_code pos (some ⟨SignalAction.BUY, price⟩) (some cash)
            (some positions) accepted).order
          = some ⟨stock_code, price,
              ((py_int (cash / price / 100) * 100 : Int) : ℚ), SignalAction.BUY⟩ ∧
        (py_int (cash / price / 100) * 100) % 100 = 0 ∧
        ((py_int (cash / price / 100) * 100 : Int) : ℚ) ≤ cash / price ∧
        ∀ m : Int, m % 100 = 0 → (m : ℚ) ≤ cash / price →
          m ≤ py_int (cash / price / 100) * 100)) ∧
    (∀ q, (positions.filter (fun r => r.code = stock_code)).head? = some q →
      0 < q.qty →
      (execute_signal stock_code pos (some ⟨SignalAction.SELL, price⟩) (some cash)
          (some positions) accepted).order
        = some ⟨stock_code, price, q.qty, SignalAction.SELL⟩) ∧
    ((positions.filter (fun q => q.code = stock_code)).isEmpty = true →
      execute_signal stock_code pos (some ⟨SignalAction.SELL, price⟩) (some cash)
          (some positions) accepted = ⟨false, none, pos⟩) := by
  refine ⟨?_, ?_, ?_, ?_⟩
  · intro h
    simp [execute_signal, h]
  · intro h
    constructor
    · intro hlt
      simp [execute_signal, h, hlt]
    · intro hge
      have hnlt : ¬ (py_int (cash / price / 100) * 100 < 100) := not_lt.mpr hge
      obtain ⟨hmod, hle, hmax⟩ := buy_qty_max price cash hp hc
      refine ⟨?_, hmod, hle, hmax⟩
      cases accepted <;> simp [execute_signal, h, hnlt]
  · intro q hq hqty
    have hne : (positions.filter (fun r => r.code = stock_code)).isEmpty = false := by
      rcases hfil : positions.filter (fun r => r.code = stock_code) with _ | ⟨x, xs⟩
      · rw [hfil] at hq; cases hq
      · rw [hfil]; rfl
    have hfind : positions.find? (fun r => decide (r.code = stock_code)) = some q := by
      rw [← List.filter_head? (fun r => decide (r.code = stock_code)) positions]
      exact hq
    have hnle : ¬ (q.qty ≤ 0) := not_le.mpr hqty
    cases accepted <;> simp [execute_signal, hne, hfind, hnle]
  · intro h
    simp [execute_signal, h]

/-- Witness for C9: a BUY signal while a position in the stock is already
held is skipped with no order placed. -/
theorem c9_execute_signal_quantities_witness :
    execute_signal "HK.00700" 0 (some ⟨SignalAction.BUY, 2⟩) (some 450)
        (some [⟨"HK.00700", 100⟩]) true = ⟨false, none, 0⟩ :=
  (c9_execute_signal_quantities "HK.00700" 0 2 450 [⟨"HK.00700", 100⟩] true
    (by norm_num) (by norm_num)).1 (by decide)

/-- `le_bytes w x` always produces exactly `w` bytes. -/
theorem le_bytes_length (w : Nat) : ∀ x, (le_bytes w x).length = w := by
  induction w with
  | zero => intro x; rfl
  | succ n ih => intro x; simp [le_bytes, ih]

/-- An MD5 digest always has exactly 16 bytes. -/
theorem md5_bytes_length (msg : List Nat) : (md5_bytes msg).length = 16 := by
  simp [md5_bytes, le_bytes_length]

/-- Hex-encoding a byte list doubles its length. -/
theorem flatMap_byte_hex_length (l : List Nat) :
    (l.flatMap byte_hex).length = 2 * l.length := by
  induction l with
  | nil => rfl
  | cons b rest ih =>
    simp [List.flatMap_cons, byte_hex, ih]
    omega

/-- An MD5 hex digest always has exactly 32 characters. -/
theorem md5_hex_chars_length (msg : List Nat) : (md5_hex_chars msg).length = 32 := by
  rw [md5_hex_chars, flatMap_byte_hex_length, md5_bytes_length]

/-- Every character produced by `hex_digit` lies in the class `[a-f0-9]`. -/
theorem is_hex_char_hex_digit (n : Nat) : is_hex_char (hex_digit n) = true := by
  unfold hex_digit
  split <;> decide

/-- Every character of an MD5 hex digest lies in the class `[a-f0-9]`. -/
theorem md5_hex_chars_all_hex (msg : List Nat) :
    ∀ c ∈ md5_hex_chars msg, is_hex_char c = true := by
  intro c hc
  rw [md5_hex_chars] at hc
  obtain ⟨b, _, hcb⟩ := List.mem_flatMap.mp hc
  simp only [byte_hex, List.mem_cons, List.not_mem_nil, or_false] at hcb
  rcases hcb with rfl | rfl <;> exact is_hex_char_hex_digit _

/-- Lowercase hex characters are fixed by `Char.toLower`. -/
theorem toLower_of_hex (c : Char) (hc : is_hex_char c = true) :
    Char.toLower c = c := by
  rw [is_hex_char] at hc
  have h := of_decide_eq_true hc
  have hcond : ¬ (c.toNat ≥ 65 ∧ c.toNat ≤ 90) := by
    rcases h with ⟨h1, h2⟩ | ⟨h1, h2⟩
    · have hn : 97 ≤ c.toNat := h1
      omega
    · have hn : c.toNat ≤ 57 := h2
      omega
  simp [Char.toLower, hcond]

/-- Mapping `Char.toLower` over a list of hex characters changes nothing. -/
theorem map_toLower_of_hex (l : List Char) (h : ∀ c ∈ l, is_hex_char c = true) :
    l.map Char.toLower = l := by
  induction l with
  | nil => rfl
  | cons c rest ih =>
    rw [List.map_cons, toLower_of_hex c (h c (List.mem_cons_self c rest)),
      ih (fun x hx => h x (List.mem_cons_of_mem c hx))]

/-- `md5_hex` always produces a 32-character string. -/
theorem md5_hex_length (s : String) : (md5_hex s).length = 32 := by
  show (md5_hex_chars (s.data.flatMap utf8_bytes)).length = 32
  exact md5_hex_chars_length _

/-- Every character of an `md5_hex` output is a lowercase hex character. -/
theorem md5_hex_all_hex (s : String) :
    (md5_hex s).data.all is_hex_char = true := by
  rw [List.all_eq_true]
  intro c hc
  exact md5_hex_chars_all_hex _ c hc

/-- Every `md5_hex` output satisfies the repository's `is_md5_hash`
format check. -/
theorem is_md5_hash_md5_hex (s : String) : is_md5_hash (md5_hex s) = true := by
  have hlen : (md5_hex s).data.length = 32 := md5_hex_length s
  have hhex : ∀ c ∈ (md5_hex s).data, is_hex_char c = true := by
    have := md5_hex_all_hex s
    rw [List.all_eq_true] at this
    exact this
  have hne : (md5_hex s).data.isEmpty = false := by
    rcases hd : (md5_hex s).data with _ | ⟨x, xs⟩
    · rw [hd] at hlen; cases hlen
    · rfl
  have hlow : (py_lower (md5_hex s)).data = (md5_hex s).data := by
    show ((md5_hex s).data.map Char.toLower) = (md5_hex s).data
    exact map_toLower_of_hex _ hhex
  rw [is_md5_hash, hne]
  simp only [Bool.if_false_left, Bool.and_eq_true, Bool.not_eq_true]
  rw [hlow]
  simp [hlen, List.all_eq_true.mpr hhex]

/-- Fidelity check of the MD5 embedding against the RFC 1321 test suite:
the digest of `"abc"`. -/
theorem md5_hex_rfc1321_abc :
    md5_hex "abc" = "900150983cd24fb0d6963f7d28e17f72" := by
  decide

/-- Fidelity check of the MD5 embedding against the RFC 1321 test suite:
the digest of the empty string. -/
theorem md5_hex_rfc1321_empty :
    md5_hex "" = "d41d8cd98f00b204e9800998ecf8427e" := by
  decide

/-- C10: for every non-empty password, `generate_password_hash` returns a
32-character string of lowercase hexadecimal characters that satisfies
`is_md5_hash`; and `hash_password` with `use_md5 = True` and
`is_already_hashed = False` is idempotent, because its output either was
already in MD5 format or is a fresh MD5 digest, which the format check
passes through unchanged on the second application. -/
theorem c10_password_hash (password : String) (hpw : password ≠ "") :
    (generate_password_hash password).length = 32 ∧
    (generate_password_hash password).data.all is_hex_char = true ∧
    is_md5_hash (generate_password_hash password) = true ∧
    hash_password (hash_password password true false) true false
      = hash_password password true false := by
  refine ⟨md5_hex_length password, md5_hex_all_hex password,
    is_md5_hash_md5_hex password, ?_⟩
  by_cases h0 : password.data.isEmpty = true
  · have hfix : hash_password password true false = password := by
      rw [hash_password, if_pos h0]
    rw [hfix]; exact hfix
  · by_cases hm : is_md5_hash password = true
    · have hfix : hash_password password true false = password := by
        rw [hash_password, if_neg h0]
        simp [hm]
      rw [hfix]; exact hfix
    · have hout : hash_password password true false = md5_hex password := by
        rw [hash_password, if_neg h0]
        simp [hm]
      rw [hout]
      have hne : (md5_hex password).data.isEmpty = false := by
        have hlen := md5_hex_length password
        rcases hd : (md5_hex password).data with _ | ⟨x, xs⟩
        · rw [show (md5_hex password).length
              = (md5_hex password).data.length from rfl, hd] at hlen
          cases hlen
        · rfl
      rw [hash_password, if_neg (by simp [hne])]
      simp [is_md5_hash_md5_hex password]

/-- Witness for C10 at the password `"abc"`. -/
theorem c10_password_hash_witness :
    (generate_password_hash "abc").length = 32 ∧
    (generate_password_hash "abc").data.all is_hex_char = true ∧
    is_md5_hash (generate_password_hash "abc") = true ∧
    hash_password (hash_password "abc" true false) true false
      = hash_password "abc" true false :=
  c10_password_hash "abc" (by decide)
